import Mathlib

/-!
Shallow embedding of the URL-shortener core: the validation module
(`src/Frontend Test Submission/url-shortner/src/utils/validation.ts`), the
geolocation resolver and the `UrlShortenerService` class
(`src/services/urlShortenerService.ts`).  JavaScript machine behaviour
(`parseInt`, `toLowerCase`, `trim`, falsy strings) is modelled explicitly;
wall-clock time is an `Int` of milliseconds passed in by the caller;
randomness (`generateShortCode`) and the asynchronous environment (identifier
generation, referrer, network outcomes of the geolocation lookups) are
explicit parameters, so every operation is a pure function on the service
state.
-/

namespace UrlShortener

/-! ## Models of JavaScript string builtins -/

/-- `String.prototype.toLowerCase` restricted to ASCII (short codes are
validated to be ASCII alphanumeric before being folded). -/
def jsToLower (s : String) : String := ⟨s.data.map Char.toLower⟩

/-- `String.prototype.trim`: strip whitespace from both ends. -/
def jsTrim (s : String) : String :=
  ⟨((s.data.dropWhile Char.isWhitespace).reverse.dropWhile Char.isWhitespace).reverse⟩

/-- Hexadecimal digit test, for the `0x` radix inference of `parseInt`. -/
def isHexDigit (c : Char) : Bool :=
  c.isDigit || ('a' ≤ c && c ≤ 'f') || ('A' ≤ c && c ≤ 'F')

/-- Numeric value of a (decimal or hexadecimal) digit character. -/
def digitVal (c : Char) : Nat :=
  if c.isDigit then c.toNat - '0'.toNat
  else if 'a' ≤ c && c ≤ 'f' then c.toNat - 'a'.toNat + 10
  else if 'A' ≤ c && c ≤ 'F' then c.toNat - 'A'.toNat + 10
  else 0

/-- Value of a digit string in the given base, most significant digit first. -/
def natOfDigits (base : Nat) (ds : List Char) : Nat :=
  ds.foldl (fun a c => a * base + digitVal c) 0

/-- `parseInt(s)` with no radix argument: skip leading whitespace, read an
optional sign, infer radix 16 from a `0x`/`0X` prefix (radix 10 otherwise),
take the longest prefix of digits of that radix and ignore the rest of the
string; `none` models `NaN` (no digits found). -/
def jsParseInt (s : String) : Option Int :=
  let cs := s.data.dropWhile Char.isWhitespace
  let (sign, cs1) : Int × List Char :=
    match cs with
    | '-' :: rest => (-1, rest)
    | '+' :: rest => (1, rest)
    | _ => (1, cs)
  let (base, body) : Nat × List Char :=
    match cs1 with
    | '0' :: c :: rest => if c = 'x' || c = 'X' then (16, rest) else (10, cs1)
    | _ => (10, cs1)
  let ds := body.takeWhile (fun c => if base = 16 then isHexDigit c else c.isDigit)
  if ds = [] then none else some (sign * (natOfDigits base ds : Int))

/-! ## Validation module (`utils/validation.ts`) -/

/-- Modelled from the spec: `validateUrl` delegates to the platform `URL`
constructor, which is not part of the repository; per the spec it accepts
exactly the structurally valid absolute URLs — a non-empty alphabetic
scheme, the `://` separator, and a non-empty authority/remainder. -/
def validateUrl (url : String) : Bool :=
  let scheme := url.data.takeWhile Char.isAlpha
  match url.data.drop scheme.length with
  | ':' :: '/' :: '/' :: tail => decide (scheme ≠ []) && decide (tail ≠ [])
  | _ => false

/-- `validateShortCode`: the regex `^[A-Za-z0-9]{3,10}$`. -/
def validateShortCode (shortCode : String) : Bool :=
  3 ≤ shortCode.data.length && shortCode.data.length ≤ 10 &&
    shortCode.data.all (fun c => c.isAlpha || c.isDigit)

/-- `validateValidityPeriod`: `parseInt` the candidate; true iff the parse is
not `NaN` and the value lies in `[1, 10080]`. -/
def validateValidityPeriod (period : String) : Bool :=
  match jsParseInt period with
  | none => false
  | some n => 1 ≤ n && n ≤ 10080

/-! ## Geolocation resolver (`getApproximateLocation` and helpers) -/

/-- The `{country, city, region}` triple the resolver produces. -/
structure LocationTriple where
  country : String
  city : String
  region : String
deriving Repr, DecidableEq

/-- The all-`"Unknown"` final fallback triple. -/
def unknownLocation : LocationTriple := ⟨"Unknown", "Unknown", "Unknown"⟩

/-- JavaScript `a || b` on strings: the empty string is the only falsy one. -/
def orFalsy (a b : String) : String := if a = "" then b else a

/-- Fields of a successful `ipapi.co` response (absent fields are `""`). -/
structure IpApiData where
  country_name : String
  city : String
  region : String
deriving Repr, DecidableEq

/-- Address fields of a successful Nominatim reverse-geocoding response
(absent fields are `""`). -/
structure NominatimAddress where
  country : String
  city : String
  town : String
  village : String
  state : String
  region : String
deriving Repr, DecidableEq

/-- Device coordinates delivered by the browser geolocation API. -/
structure Coordinates where
  latitude : Int
  longitude : Int
deriving Repr, DecidableEq

/-- Outcome of the three external steps the resolver may take: `none` models
a thrown error, a non-ok response, or a denied / timed-out permission. -/
structure GeoEnv where
  ipResult : Option IpApiData
  browserPosition : Option Coordinates
  geocodeResult : Option NominatimAddress
deriving Repr, DecidableEq

/-- `reverseGeocode`: on a successful response build the triple from the
address fields (`city` falling back to `town` then `village`, `region`
falling back from `state`); on failure return the all-unknown triple. -/
def reverseGeocode (res : Option NominatimAddress) : LocationTriple :=
  match res with
  | some a =>
    { country := orFalsy a.country "Unknown"
      city := orFalsy a.city (orFalsy a.town (orFalsy a.village "Unknown"))
      region := orFalsy a.state (orFalsy a.region "Unknown") }
  | none => unknownLocation

/-- `getApproximateLocation`: try the IP lookup; on its failure try browser
geolocation followed by reverse geocoding; finally fall back to the
all-unknown triple.  Every failure is caught locally, so the function is
total in the outcome environment. -/
def getApproximateLocation (env : GeoEnv) : LocationTriple :=
  match env.ipResult with
  | some d =>
    { country := orFalsy d.country_name "Unknown"
      city := orFalsy d.city "Unknown"
      region := orFalsy d.region "Unknown" }
  | none =>
    match env.browserPosition with
    | some _ => reverseGeocode env.geocodeResult
    | none => unknownLocation

/-! ## Data model (`types/index.ts`) -/

/-- `ClickData`: one observed access to a short code. -/
structure ClickData where
  id : String
  timestamp : Int
  source : String
  userAgent : String
  location : LocationTriple
deriving Repr, DecidableEq

/-- `ShortenedUrl`: one shortening mapping.  Timestamps are milliseconds
since the epoch (`Date.getTime()`). -/
structure ShortenedUrl where
  id : String
  originalUrl : String
  shortCode : String
  shortUrl : String
  validityPeriod : Int
  expiryDate : Int
  createdAt : Int
  clickCount : Nat
  clicks : List ClickData
deriving Repr, DecidableEq

/-- `UrlFormData`: the caller-supplied creation form. -/
structure UrlFormData where
  originalUrl : String
  validityPeriod : String
  preferredShortCode : String
deriving Repr, DecidableEq

/-- The service state: the in-memory collection, the reserved-code index
(case-folded, membership is what matters) and the persisted blob under the
single storage key (`none` = key absent). -/
structure ServiceState where
  shortenedUrls : List ShortenedUrl
  usedShortCodes : List String
  storage : Option (List ShortenedUrl)
deriving Repr, DecidableEq

/-- `saveToStorage`: serialize the whole collection to the storage key. -/
def saveToStorage (st : ServiceState) : ServiceState :=
  { st with storage := some st.shortenedUrls }

/-- Modelled from the spec: `utils/constants.ts` is not in the repository
snapshot; the spec fixes the default validity period at 30 minutes. -/
def DEFAULT_VALIDITY_MINUTES : Int := 30

/-- Modelled from the spec: `utils/constants.ts` is not in the repository
snapshot; the spec fixes the generated short-code length at 6. -/
def SHORT_CODE_LENGTH : Nat := 6

/-! ## `createShortUrl` -/

/-- The error taxonomy of `createShortUrl` (each rejection carries a
human-readable message in the source; only the case matters here). -/
inductive CreateError where
  | invalidUrl
  | invalidValidityPeriod
  | invalidShortCode
  | shortCodeTaken
deriving Repr, DecidableEq

/-- The `do … while (usedShortCodes.has(code.toLowerCase()))` generation
loop: `stream i` is the `i`-th random candidate `generateShortCode()` would
produce; `fuel` bounds the number of draws inspected, `none` modelling a run
that has not terminated within that many draws. -/
def generateUnreserved (used : List String) (stream : Nat → String) :
    Nat → Nat → Option String
  | _, 0 => none
  | i, fuel + 1 =>
    let c := stream i
    if jsToLower c ∈ used then generateUnreserved used stream (i + 1) fuel
    else some c

/-- The short-code resolution step of `createShortUrl`: a non-empty trimmed
preferred code is validated against the pattern and the reserved-code index;
an empty one is replaced by the first unreserved random candidate. -/
def resolveShortCode (st : ServiceState) (trimmed : String)
    (stream : Nat → String) (fuel : Nat) : Option (Except CreateError String) :=
  if trimmed ≠ "" then
    if ¬ validateShortCode trimmed then some (.error .invalidShortCode)
    else if jsToLower trimmed ∈ st.usedShortCodes then some (.error .shortCodeTaken)
    else some (.ok trimmed)
  else
    (generateUnreserved st.usedShortCodes stream 0 fuel).map .ok

/-- `const validityPeriod = formData.validityPeriod ? parseInt(formData.validityPeriod)
: DEFAULT_VALIDITY_MINUTES` — the empty string is the only falsy text, and
`NaN` (`getD 0`) can only reach a rejected call. -/
def resolvedValidityPeriod (formData : UrlFormData) : Int :=
  if formData.validityPeriod ≠ "" then (jsParseInt formData.validityPeriod).getD 0
  else DEFAULT_VALIDITY_MINUTES

/-- `createShortUrl`: validate the URL, resolve and validate the validity
period (`parseInt` of the supplied text when non-empty, the default
otherwise), resolve the short code, then build the record, push it, reserve
the code and persist.  `now` is `new Date().getTime()`, `newId` the
generated record id, `origin` is `window.location.origin`, and `stream` /
`fuel` drive the random generation loop (`none` = that loop has not
terminated).  Every rejection returns before any mutation, so it is paired
with the unchanged state. -/
def createShortUrl (st : ServiceState) (formData : UrlFormData) (now : Int)
    (newId origin : String) (stream : Nat → String) (fuel : Nat) :
    Option (Except CreateError ShortenedUrl × ServiceState) :=
  if ¬ validateUrl formData.originalUrl then some (.error .invalidUrl, st)
  else
    let validityPeriod : Int := resolvedValidityPeriod formData
    if formData.validityPeriod ≠ "" ∧ ¬ validateValidityPeriod formData.validityPeriod then
      some (.error .invalidValidityPeriod, st)
    else
      match resolveShortCode st (jsTrim formData.preferredShortCode) stream fuel with
      | none => none
      | some (.error e) => some (.error e, st)
      | some (.ok shortCode) =>
        let expiryDate := now + validityPeriod * 60000
        let newRecord : ShortenedUrl :=
          { id := newId
            originalUrl := formData.originalUrl
            shortCode := shortCode
            shortUrl := origin ++ "/" ++ shortCode
            validityPeriod := validityPeriod
            expiryDate := expiryDate
            createdAt := now
            clickCount := 0
            clicks := [] }
        let st' := saveToStorage
          { st with shortenedUrls := st.shortenedUrls ++ [newRecord],
                    usedShortCodes := st.usedShortCodes ++ [jsToLower shortCode] }
        some (.ok newRecord, st')

/-! ## Lookup and click tracking -/

/-- The asynchronous environment of one click-tracking run: the generated
click id, `new Date().getTime()`, the referrer-derived source, the user
agent, and the outcomes of the geolocation steps. -/
structure TrackEnv where
  clickId : String
  timestamp : Int
  source : String
  userAgent : String
  geo : GeoEnv
deriving Repr, DecidableEq

/-- The `ClickData` value one tracking run appends. -/
def mkClickData (env : TrackEnv) : ClickData :=
  { id := env.clickId
    timestamp := env.timestamp
    source := env.source
    userAgent := env.userAgent
    location := getApproximateLocation env.geo }

/-- In-place mutation of the record `find` returned: rewrite the first
element satisfying the predicate, keep everything else. -/
def updateFirst (p : α → Bool) (f : α → α) : List α → List α
  | [] => []
  | x :: xs => if p x then f x :: xs else x :: updateFirst p f xs

/-- `trackClick`: re-find the record by id (no-op when it is gone), append
the click, set `clickCount = clicks.length`, persist. -/
def trackClick (st : ServiceState) (urlId : String) (env : TrackEnv) :
    ServiceState :=
  match st.shortenedUrls.find? (fun u => u.id = urlId) with
  | none => st
  | some _ =>
    let push : ShortenedUrl → ShortenedUrl := fun u =>
      { u with clicks := u.clicks ++ [mkClickData env],
               clickCount := (u.clicks ++ [mkClickData env]).length }
    saveToStorage
      { st with shortenedUrls := updateFirst (fun u => u.id = urlId) push st.shortenedUrls }

/-- The case-insensitive lookup of `getOriginalUrl`. -/
def findByCode (st : ServiceState) (shortCode : String) : Option ShortenedUrl :=
  st.shortenedUrls.find? (fun u => jsToLower u.shortCode = jsToLower shortCode)

/-- `getOriginalUrl`: case-insensitive lookup; a live match returns its
destination and, when `track` is set, fires the background tracking task;
everything else returns `null`.  The returned state is the state after the
background task has settled (the destination itself is computed before it
runs). -/
def getOriginalUrl (st : ServiceState) (shortCode : String) (track : Bool)
    (now : Int) (env : TrackEnv) : Option String × ServiceState :=
  match findByCode st shortCode with
  | some u =>
    if now < u.expiryDate then
      (some u.originalUrl, if track then trackClick st u.id env else st)
    else (none, st)
  | none => (none, st)

/-! ## Statistics and expiry sweep -/

/-- `UrlStatistics`: the read-only projection `getStatistics` computes.
The mean is exact (`ℚ`) rather than floating-point. -/
structure UrlStatistics where
  totalUrls : Nat
  activeUrls : Nat
  expiredUrls : Nat
  totalClicks : Nat
  averageClicksPerUrl : ℚ
  mostClickedUrl : Option ShortenedUrl
deriving Repr, DecidableEq

/-- `max?.clickCount || 0`: the click count of the running maximum, `0` both
for `undefined` and for a zero count. -/
def accCount : Option ShortenedUrl → Nat
  | some v => v.clickCount
  | none => 0

/-- One step of the `reduce` computing `mostClickedUrl`: replace the current
maximum only on strictly greater `clickCount`. -/
def mostClickedStep (m : Option ShortenedUrl) (u : ShortenedUrl) :
    Option ShortenedUrl :=
  if accCount m < u.clickCount then some u else m

/-- The left-to-right `reduce` with initial value `undefined`. -/
def mostClickedUrl (l : List ShortenedUrl) : Option ShortenedUrl :=
  l.foldl mostClickedStep none

/-- `getStatistics`, evaluated against the wall clock `now`. -/
def getStatistics (st : ServiceState) (now : Int) : UrlStatistics :=
  let totalClicks := st.shortenedUrls.foldl (fun s u => s + u.clickCount) 0
  { totalUrls := st.shortenedUrls.length
    activeUrls := (st.shortenedUrls.filter (fun u => now < u.expiryDate)).length
    expiredUrls := (st.shortenedUrls.filter (fun u => u.expiryDate ≤ now)).length
    totalClicks := totalClicks
    averageClicksPerUrl :=
      if 0 < st.shortenedUrls.length then (totalClicks : ℚ) / st.shortenedUrls.length
      else 0
    mostClickedUrl := mostClickedUrl st.shortenedUrls }

/-- `clearExpiredUrls`: keep exactly the records whose expiry is strictly in
the future, rebuild the reserved-code index from the survivors, persist. -/
def clearExpiredUrls (st : ServiceState) (now : Int) : ServiceState :=
  let kept := st.shortenedUrls.filter (fun u => now < u.expiryDate)
  saveToStorage
    { st with shortenedUrls := kept,
              usedShortCodes := kept.map (fun u => jsToLower u.shortCode) }

/-! ## Derived notions used by the specification statements -/

/-- The denormalization invariant: every held record's `clickCount` equals
the length of its `clicks` list. -/
def ClickCountInvariant (st : ServiceState) : Prop :=
  ∀ u ∈ st.shortenedUrls, u.clickCount = u.clicks.length

instance (st : ServiceState) : Decidable (ClickCountInvariant st) := by
  unfold ClickCountInvariant; infer_instance

/-- The maximum click count over a list of records (`0` for the empty list). -/
def maxClickCount : List ShortenedUrl → Nat
  | [] => 0
  | u :: l => max u.clickCount (maxClickCount l)

/-! ## Concrete sample data, used by the witnesses -/

/-- The empty service state (fresh browser profile). -/
def emptyState : ServiceState := ⟨[], [], none⟩

/-- A sample record: created at 100 ms with the default 30-minute validity. -/
def exRecord : ShortenedUrl :=
  { id := "id1"
    originalUrl := "https://example.com"
    shortCode := "Abc12"
    shortUrl := "o/Abc12"
    validityPeriod := 30
    expiryDate := 1800100
    createdAt := 100
    clickCount := 0
    clicks := [] }

/-- The state holding exactly `exRecord`. -/
def exState : ServiceState := ⟨[exRecord], ["abc12"], some [exRecord]⟩

/-- The creation form that produces `exRecord`. -/
def exForm : UrlFormData := ⟨"https://example.com", "", "Abc12"⟩

/-- A sample tracking environment in which every geolocation step fails. -/
def exTrackEnv : TrackEnv := ⟨"cid", 50, "Direct access", "ua", ⟨none, none, none⟩⟩

/-- A sample random-candidate stream. -/
def exStream : Nat → String := fun _ => "QQQQQQ"

/-! ## General lemmas about the embedding -/

theorem orFalsy_ne_empty (a b : String) (hb : b ≠ "") : orFalsy a b ≠ "" := by
  unfold orFalsy
  split
  · exact hb
  · assumption

/-- A successfully generated candidate is unreserved. -/
theorem generateUnreserved_not_mem (used : List String) (stream : Nat → String) :
    ∀ fuel i c, generateUnreserved used stream i fuel = some c →
      jsToLower c ∉ used := by
  intro fuel
  induction fuel with
  | zero => intro i c h; simp [generateUnreserved] at h
  | succ n ih =>
    intro i c h
    unfold generateUnreserved at h
    dsimp only at h
    split at h
    · exact ih (i + 1) c h
    · cases h
      assumption

/-- A short code resolved to `ok` is unreserved, and when the trimmed
preferred code was non-empty it is exactly that code. -/
theorem resolveShortCode_ok (st : ServiceState) (trimmed : String)
    (stream : Nat → String) (fuel : Nat) (c : String)
    (h : resolveShortCode st trimmed stream fuel = some (.ok c)) :
    jsToLower c ∉ st.usedShortCodes ∧ (trimmed ≠ "" → c = trimmed) := by
  unfold resolveShortCode at h
  split at h
  · split at h
    · simp at h
    · split at h
      · simp at h
      · simp at h
        constructor
        · rw [← h]; assumption
        · intro _; exact h.symm
  · rename_i htr
    constructor
    · cases hg : generateUnreserved st.usedShortCodes stream 0 fuel with
      | none => rw [hg] at h; simp at h
      | some c0 =>
        rw [hg] at h
        simp at h
        rw [← h]
        exact generateUnreserved_not_mem st.usedShortCodes stream fuel 0 c0 hg
    · intro htr'
      exact absurd (by push_neg at htr; exact htr) htr'

/-- Shape of every successful creation: record fields, pushed collection,
reserved code, persisted blob. -/
theorem createShortUrl_ok_shape (st : ServiceState) (fd : UrlFormData)
    (now : Int) (newId origin : String) (stream : Nat → String) (fuel : Nat)
    (r : ShortenedUrl) (st' : ServiceState)
    (h : createShortUrl st fd now newId origin stream fuel = some (.ok r, st')) :
    st'.shortenedUrls = st.shortenedUrls ++ [r] ∧
    st'.usedShortCodes = st.usedShortCodes ++ [jsToLower r.shortCode] ∧
    st'.storage = some (st.shortenedUrls ++ [r]) ∧
    r.createdAt = now ∧ r.clickCount = 0 ∧ r.clicks = [] ∧ r.id = newId ∧
    r.originalUrl = fd.originalUrl ∧
    r.expiryDate = now + r.validityPeriod * 60000 ∧
    (fd.validityPeriod = "" → r.validityPeriod = DEFAULT_VALIDITY_MINUTES) ∧
    (fd.validityPeriod ≠ "" → jsParseInt fd.validityPeriod = some r.validityPeriod) ∧
    (jsTrim fd.preferredShortCode ≠ "" → r.shortCode = jsTrim fd.preferredShortCode) ∧
    jsToLower r.shortCode ∉ st.usedShortCodes := by
  unfold createShortUrl at h
  split at h
  · simp at h
  · split at h
    · simp at h
    · rename_i hurl hvpOk
      cases hr : resolveShortCode st (jsTrim fd.preferredShortCode) stream fuel with
      | none => rw [hr] at h; simp at h
      | some res =>
        rw [hr] at h
        cases res with
        | error e => simp at h
        | ok code =>
          simp only [Option.some.injEq, Prod.mk.injEq, Except.ok.injEq] at h
          obtain ⟨hrec, hst⟩ := h
          obtain ⟨hcode, htrim⟩ := resolveShortCode_ok st _ stream fuel code hr
          subst hst
          rw [← hrec]
          refine ⟨rfl, rfl, rfl, rfl, rfl, rfl, rfl, rfl, rfl, ?_, ?_, ?_, ?_⟩
          · intro he
            simp [resolvedValidityPeriod, he]
          · intro hne
            have hval : validateValidityPeriod fd.validityPeriod = true := by
              by_contra hv
              exact hvpOk ⟨hne, fun hh => hv hh⟩
            unfold validateValidityPeriod at hval
            cases hp : jsParseInt fd.validityPeriod with
            | none => rw [hp] at hval; simp at hval
            | some n =>
              show some n = some (resolvedValidityPeriod fd)
              unfold resolvedValidityPeriod
              rw [if_pos hne, hp]
              rfl
          · intro hne
            exact htrim hne
          · exact hcode

/-- Every rejected creation is paired with the untouched state. -/
theorem createShortUrl_error_state (st : ServiceState) (fd : UrlFormData)
    (now : Int) (newId origin : String) (stream : Nat → String) (fuel : Nat)
    (e : CreateError) (st' : ServiceState)
    (h : createShortUrl st fd now newId origin stream fuel = some (.error e, st')) :
    st' = st := by
  unfold createShortUrl at h
  split at h
  · simp at h
    exact h.2.symm
  · split at h
    · simp at h
      exact h.2.symm
    · cases hr : resolveShortCode st (jsTrim fd.preferredShortCode) stream fuel with
      | none => rw [hr] at h; simp at h
      | some res =>
        rw [hr] at h
        cases res with
        | error e2 =>
          simp at h
          exact h.2.symm
        | ok code => simp at h

/-! ## Claim theorems -/

/-- C2.  Whenever `createShortUrl` fails — with any of the four errors, on
any input — the service state is completely unchanged: the record collection,
the reserved-code index and the persisted storage are all exactly as before
the call. -/
theorem createShortUrl_failure_frame (st : ServiceState) (fd : UrlFormData)
    (now : Int) (newId origin : String) (stream : Nat → String) (fuel : Nat)
    (e : CreateError) (st' : ServiceState)
    (h : createShortUrl st fd now newId origin stream fuel = some (.error e, st')) :
    st' = st :=
  createShortUrl_error_state st fd now newId origin stream fuel e st' h

theorem createShortUrl_failure_frame_witness :
    createShortUrl exState ⟨"no-url", "", ""⟩ 0 "i" "o" exStream 1 =
      some (.error .invalidUrl, exState) ∧ exState = exState :=
  ⟨by rfl,
   createShortUrl_failure_frame exState ⟨"no-url", "", ""⟩ 0 "i" "o" exStream 1
     CreateError.invalidUrl exState (by rfl)⟩

/-- C1.  `getOriginalUrl` returns `null` when no held record's short code
matches case-insensitively, and `null` when the (first) matching record has
`expiryDate ≤ now`; a live match returns its `originalUrl`; and the returned
destination never depends on the `trackClick` flag. -/
theorem getOriginalUrl_result_spec (st : ServiceState) (code : String)
    (track : Bool) (now : Int) (env : TrackEnv) :
    ((∀ u ∈ st.shortenedUrls, jsToLower u.shortCode ≠ jsToLower code) →
      (getOriginalUrl st code track now env).1 = none) ∧
    (∀ u, findByCode st code = some u → u.expiryDate ≤ now →
      (getOriginalUrl st code track now env).1 = none) ∧
    (∀ u, findByCode st code = some u → now < u.expiryDate →
      (getOriginalUrl st code track now env).1 = some u.originalUrl) ∧
    (getOriginalUrl st code true now env).1 = (getOriginalUrl st code false now env).1 := by
  refine ⟨?_, ?_, ?_, ?_⟩
  · intro hnone
    have hfind : findByCode st code = none := by
      unfold findByCode
      rw [List.find?_eq_none]
      intro u hu
      simpa using hnone u hu
    unfold getOriginalUrl
    rw [hfind]
  · intro u hfind hexp
    unfold getOriginalUrl
    rw [hfind]
    simp [not_lt.2 hexp]
  · intro u hfind hlive
    unfold getOriginalUrl
    rw [hfind]
    simp [hlive]
  · unfold getOriginalUrl
    cases hfind : findByCode st code with
    | none => rfl
    | some u =>
      by_cases hlive : now < u.expiryDate
      · simp [hlive]
      · simp [hlive]

theorem getOriginalUrl_result_spec_witness :
    (getOriginalUrl exState "ABC12" true 200 exTrackEnv).1 = some "https://example.com" :=
  (getOriginalUrl_result_spec exState "ABC12" true 200 exTrackEnv).2.2.1 exRecord
    (by rfl) (by decide)

/-- C10.  A `getOriginalUrl` call with `trackClick = false`, and likewise any
call that returns `null`, leaves the whole service state (records, reserved
codes, storage) unchanged. -/
theorem getOriginalUrl_frame (st : ServiceState) (code : String) (now : Int)
    (env : TrackEnv) :
    ((getOriginalUrl st code false now env).2 = st) ∧
    (∀ track, (getOriginalUrl st code track now env).1 = none →
      (getOriginalUrl st code track now env).2 = st) := by
  constructor
  · unfold getOriginalUrl
    cases findByCode st code with
    | none => rfl
    | some u =>
      by_cases hlive : now < u.expiryDate
      · simp [hlive]
      · simp [hlive]
  · intro track
    unfold getOriginalUrl
    cases findByCode st code with
    | none => intro _; rfl
    | some u =>
      by_cases hlive : now < u.expiryDate
      · simp [hlive]
      · simp [hlive]

theorem getOriginalUrl_frame_witness :
    (getOriginalUrl emptyState "zzz" true 0 exTrackEnv).2 = emptyState :=
  (getOriginalUrl_frame emptyState "zzz" 0 exTrackEnv).2 true (by rfl)

/-- C8 counterexample.  `"+5"` does not start with a number (its first
character is `'+'`, not a digit), yet `validateValidityPeriod "+5"` is
`true`: `parseInt` reads an optional sign before the digits, so the claim
that strings not starting with a number are rejected is false. -/
theorem validateValidityPeriod_plus_counterexample :
    validateValidityPeriod "+5" = true ∧
    "+5".data.head? = some '+' ∧ ('+').isDigit = false := by
  refine ⟨by rfl, by rfl, by rfl⟩

/-- C8 (amended).  `validateValidityPeriod` returns true iff `parseInt`
yields a value in `[1, 10080]`: strings whose integer parse fails (no digits
after optional leading whitespace, sign and radix prefix) are rejected, as
are successful parses of out-of-range values, while leading-numeric strings
with trailing non-digits (e.g. `"5abc"`) are accepted when the parsed prefix
is in range — and so are strings such as `"+5"` whose parse merely skips a
sign or whitespace first. -/
theorem validateValidityPeriod_spec (p : String) :
    (validateValidityPeriod p = true ↔
      ∃ n : Int, jsParseInt p = some n ∧ 1 ≤ n ∧ n ≤ 10080) ∧
    (jsParseInt p = none → validateValidityPeriod p = false) ∧
    (∀ n : Int, jsParseInt p = some n → (n < 1 ∨ 10080 < n) →
      validateValidityPeriod p = false) ∧
    validateValidityPeriod "5abc" = true ∧
    validateValidityPeriod "+5" = true ∧
    validateValidityPeriod "abc" = false ∧
    validateValidityPeriod "0" = false ∧
    validateValidityPeriod "10081" = false := by
  refine ⟨?_, ?_, ?_, by rfl, by rfl, by rfl, by rfl, by rfl⟩
  · unfold validateValidityPeriod
    cases h : jsParseInt p with
    | none => simp
    | some n =>
      simp only [Bool.and_eq_true, decide_eq_true_eq, Option.some.injEq]
      constructor
      · rintro ⟨h1, h2⟩
        exact ⟨n, rfl, h1, h2⟩
      · rintro ⟨m, hm, h1, h2⟩
        cases hm
        exact ⟨h1, h2⟩
  · intro hn
    unfold validateValidityPeriod
    rw [hn]
  · intro n hn hrange
    unfold validateValidityPeriod
    rw [hn]
    show (decide (1 ≤ n) && decide (n ≤ 10080)) = false
    rcases hrange with h | h
    · have h1 : decide (1 ≤ n) = false := decide_eq_false (by omega)
      rw [h1, Bool.false_and]
    · have h1 : decide (n ≤ 10080) = false := decide_eq_false (by omega)
      rw [h1, Bool.and_false]

theorem validateValidityPeriod_spec_witness :
    validateValidityPeriod "abc" = false ∧ validateValidityPeriod "10081" = false :=
  ⟨(validateValidityPeriod_spec "abc").2.1 (by rfl),
   (validateValidityPeriod_spec "10081").2.2.1 10081 (by rfl) (by omega)⟩

/-- C9.  The geolocation resolver is a total function of the outcomes of its
three steps: when the IP lookup and the browser geolocation both fail it
returns the all-`"Unknown"` triple, likewise when the IP lookup and the
reverse geocoding fail, and in every case each field of the resulting triple
is a non-empty string (unresolvable fields default to `"Unknown"`), so no
inner failure ever reaches the caller. -/
theorem getApproximateLocation_total (env : GeoEnv) :
    (env.ipResult = none → env.browserPosition = none →
      getApproximateLocation env = unknownLocation) ∧
    (env.ipResult = none → env.geocodeResult = none →
      getApproximateLocation env = unknownLocation) ∧
    (getApproximateLocation env).country ≠ "" ∧
    (getApproximateLocation env).city ≠ "" ∧
    (getApproximateLocation env).region ≠ "" := by
  obtain ⟨ip, bp, gc⟩ := env
  refine ⟨?_, ?_, ?_, ?_, ?_⟩
  · intro hip hbp
    simp only at hip hbp
    subst hip; subst hbp
    rfl
  · intro hip hgc
    simp only at hip hgc
    subst hip; subst hgc
    cases bp <;> rfl
  all_goals
    cases ip with
    | some d =>
      first
      | exact orFalsy_ne_empty d.country_name "Unknown" (by decide)
      | exact orFalsy_ne_empty d.city "Unknown" (by decide)
      | exact orFalsy_ne_empty d.region "Unknown" (by decide)
    | none =>
      cases bp with
      | none => simp [getApproximateLocation, unknownLocation]
      | some c =>
        cases gc with
        | none => simp [getApproximateLocation, reverseGeocode, unknownLocation]
        | some a =>
          first
          | exact orFalsy_ne_empty a.country "Unknown" (by decide)
          | exact orFalsy_ne_empty a.city _
              (orFalsy_ne_empty a.town _ (orFalsy_ne_empty a.village "Unknown" (by decide)))
          | exact orFalsy_ne_empty a.state _
              (orFalsy_ne_empty a.region "Unknown" (by decide))

theorem getApproximateLocation_total_witness :
    getApproximateLocation ⟨none, none, none⟩ = unknownLocation :=
  (getApproximateLocation_total ⟨none, none, none⟩).1 rfl rfl

/-- A pattern-valid custom code whose case-folded form is reserved is
rejected with `shortCodeTaken` (and no state change). -/
theorem createShortUrl_taken_of_reserved (st : ServiceState) (fd : UrlFormData)
    (now : Int) (newId origin : String) (stream : Nat → String) (fuel : Nat)
    (hurl : validateUrl fd.originalUrl = true)
    (hvp : fd.validityPeriod = "" ∨ validateValidityPeriod fd.validityPeriod = true)
    (htr : jsTrim fd.preferredShortCode ≠ "")
    (hpat : validateShortCode (jsTrim fd.preferredShortCode) = true)
    (htaken : jsToLower (jsTrim fd.preferredShortCode) ∈ st.usedShortCodes) :
    createShortUrl st fd now newId origin stream fuel =
      some (.error .shortCodeTaken, st) := by
  have hres : resolveShortCode st (jsTrim fd.preferredShortCode) stream fuel =
      some (.error .shortCodeTaken) := by
    unfold resolveShortCode
    rw [if_pos htr, if_neg (not_not_intro hpat), if_pos htaken]
  have hvpOk : ¬(fd.validityPeriod ≠ "" ∧ ¬ validateValidityPeriod fd.validityPeriod = true) := by
    rcases hvp with h | h
    · exact fun hc => hc.1 h
    · exact fun hc => hc.2 h
  unfold createShortUrl
  rw [if_neg (not_not_intro hurl), if_neg hvpOk, hres]

/-- C3.  A creation call with a pattern-valid custom code whose case-folded
form is already reserved fails with `shortCodeTaken`; in particular, after a
successful creation with a custom code, a second creation whose custom code
differs only in letter case fails with `shortCodeTaken` and changes
nothing. -/
theorem createShortUrl_taken_spec :
    (∀ (st : ServiceState) (fd : UrlFormData) (now : Int) (newId origin : String)
       (stream : Nat → String) (fuel : Nat),
      validateUrl fd.originalUrl = true →
      (fd.validityPeriod = "" ∨ validateValidityPeriod fd.validityPeriod = true) →
      jsTrim fd.preferredShortCode ≠ "" →
      validateShortCode (jsTrim fd.preferredShortCode) = true →
      jsToLower (jsTrim fd.preferredShortCode) ∈ st.usedShortCodes →
      createShortUrl st fd now newId origin stream fuel =
        some (.error .shortCodeTaken, st)) ∧
    (∀ (st st1 : ServiceState) (fd1 fd2 : UrlFormData) (now1 now2 : Int)
       (id1 id2 o1 o2 : String) (s1 s2 : Nat → String) (f1 f2 : Nat)
       (r : ShortenedUrl),
      createShortUrl st fd1 now1 id1 o1 s1 f1 = some (.ok r, st1) →
      jsTrim fd1.preferredShortCode ≠ "" →
      validateUrl fd2.originalUrl = true →
      (fd2.validityPeriod = "" ∨ validateValidityPeriod fd2.validityPeriod = true) →
      jsTrim fd2.preferredShortCode ≠ "" →
      validateShortCode (jsTrim fd2.preferredShortCode) = true →
      jsToLower (jsTrim fd2.preferredShortCode) = jsToLower (jsTrim fd1.preferredShortCode) →
      createShortUrl st1 fd2 now2 id2 o2 s2 f2 =
        some (.error .shortCodeTaken, st1)) := by
  constructor
  · intro st fd now newId origin stream fuel hurl hvp htr hpat htaken
    exact createShortUrl_taken_of_reserved st fd now newId origin stream fuel
      hurl hvp htr hpat htaken
  · intro st st1 fd1 fd2 now1 now2 id1 id2 o1 o2 s1 s2 f1 f2 r
      h1 htr1 hurl2 hvp2 htr2 hpat2 hlow
    obtain ⟨_, hused, _, _, _, _, _, _, _, _, _, hcustom, _⟩ :=
      createShortUrl_ok_shape st fd1 now1 id1 o1 s1 f1 r st1 h1
    apply createShortUrl_taken_of_reserved st1 fd2 now2 id2 o2 s2 f2
      hurl2 hvp2 htr2 hpat2
    rw [hused, hlow, hcustom htr1]
    simp

theorem createShortUrl_taken_spec_witness :
    createShortUrl exState ⟨"https://example.com", "", "aBC12"⟩ 0 "i" "o" exStream 1 =
      some (.error .shortCodeTaken, exState) :=
  createShortUrl_taken_spec.1 exState ⟨"https://example.com", "", "aBC12"⟩ 0 "i" "o"
    exStream 1 (by rfl) (Or.inl rfl) (by decide) (by rfl) (by decide)

/-- Rewriting the first matching element leaves any projection it preserves
unchanged across the whole list. -/
theorem updateFirst_map {α β : Type} (p : α → Bool) (f : α → α) (g : α → β)
    (hg : ∀ x, g (f x) = g x) :
    ∀ l : List α, (updateFirst p f l).map g = l.map g := by
  intro l
  induction l with
  | nil => rfl
  | cons x xs ih =>
    unfold updateFirst
    split
    · simp [hg]
    · simp [ih]

/-- Click tracking never changes a record's identity, creation time or
expiry. -/
theorem trackClick_preserves_dates (st : ServiceState) (urlId : String)
    (env : TrackEnv) :
    (trackClick st urlId env).shortenedUrls.map (fun u => (u.id, u.createdAt, u.expiryDate)) =
      st.shortenedUrls.map (fun u => (u.id, u.createdAt, u.expiryDate)) := by
  unfold trackClick
  cases st.shortenedUrls.find? (fun u => u.id = urlId) with
  | none => rfl
  | some w =>
    dsimp only [saveToStorage]
    apply updateFirst_map
    intro x
    rfl

/-- C4.  A successful creation fixes `createdAt = now` and
`expiryDate = createdAt + validityPeriod * 60000`, where `validityPeriod` is
the `parseInt` of the supplied text when that text is non-empty and the
default otherwise; and no later operation — click tracking, lookup (with or
without tracking) or the expiry purge — ever changes any surviving record's
identity, creation time or expiry (`getStatistics` is a pure projection and
touches no state at all). -/
theorem expiry_fixed_spec :
    (∀ (st : ServiceState) (fd : UrlFormData) (now : Int) (newId origin : String)
       (stream : Nat → String) (fuel : Nat) (r : ShortenedUrl) (st' : ServiceState),
      createShortUrl st fd now newId origin stream fuel = some (.ok r, st') →
      r.createdAt = now ∧
      r.expiryDate = r.createdAt + r.validityPeriod * 60000 ∧
      (fd.validityPeriod = "" → r.validityPeriod = DEFAULT_VALIDITY_MINUTES) ∧
      (fd.validityPeriod ≠ "" → jsParseInt fd.validityPeriod = some r.validityPeriod)) ∧
    (∀ (st : ServiceState) (urlId : String) (env : TrackEnv),
      (trackClick st urlId env).shortenedUrls.map (fun u => (u.id, u.createdAt, u.expiryDate)) =
        st.shortenedUrls.map (fun u => (u.id, u.createdAt, u.expiryDate))) ∧
    (∀ (st : ServiceState) (code : String) (track : Bool) (now : Int) (env : TrackEnv),
      (getOriginalUrl st code track now env).2.shortenedUrls.map
          (fun u => (u.id, u.createdAt, u.expiryDate)) =
        st.shortenedUrls.map (fun u => (u.id, u.createdAt, u.expiryDate))) ∧
    (∀ (st : ServiceState) (now : Int) (u : ShortenedUrl),
      u ∈ (clearExpiredUrls st now).shortenedUrls → u ∈ st.shortenedUrls) := by
  refine ⟨?_, trackClick_preserves_dates, ?_, ?_⟩
  · intro st fd now newId origin stream fuel r st' h
    obtain ⟨_, _, _, hcr, _, _, _, _, hexp, hdef, hparse, _, _⟩ :=
      createShortUrl_ok_shape st fd now newId origin stream fuel r st' h
    exact ⟨hcr, by rw [hexp, hcr], hdef, hparse⟩
  · intro st code track now env
    unfold getOriginalUrl
    cases findByCode st code with
    | none => rfl
    | some u =>
      dsimp only
      by_cases hlive : now < u.expiryDate
      · rw [if_pos hlive]
        cases track with
        | true => exact trackClick_preserves_dates st u.id env
        | false => rfl
      · rw [if_neg hlive]
  · intro st now u hu
    exact (List.mem_filter.mp hu).1

theorem expiry_fixed_spec_witness :
    exRecord.expiryDate = exRecord.createdAt + exRecord.validityPeriod * 60000 :=
  (expiry_fixed_spec.1 emptyState exForm 100 "id1" "o" exStream 1 exRecord exState
    (by rfl)).2.1

/-- If the first element satisfying `p` is `u` and `f` keeps `p` true on it,
then after rewriting it `find?` returns `f u`. -/
theorem find?_updateFirst {α : Type} (p : α → Bool) (f : α → α) (u : α)
    (hpf : p (f u) = true) :
    ∀ l : List α, l.find? p = some u →
      (updateFirst p f l).find? p = some (f u) := by
  intro l
  induction l with
  | nil => intro h; simp at h
  | cons x xs ih =>
    intro h
    unfold updateFirst
    by_cases hx : p x
    · rw [List.find?_cons_of_pos _ hx] at h
      cases h
      rw [if_pos hx, List.find?_cons_of_pos _ hpf]
    · rw [List.find?_cons_of_neg _ hx] at h
      rw [if_neg hx, List.find?_cons_of_neg _ hx]
      exact ih h

/-- Membership after rewriting the first match: an element of the result is
an untouched element of the source or the image of one. -/
theorem mem_updateFirst {α : Type} (p : α → Bool) (f : α → α) :
    ∀ (l : List α) (y : α), y ∈ updateFirst p f l →
      y ∈ l ∨ ∃ x ∈ l, y = f x := by
  intro l
  induction l with
  | nil => intro y hy; simp [updateFirst] at hy
  | cons x xs ih =>
    intro y hy
    unfold updateFirst at hy
    split at hy
    · rcases List.mem_cons.mp hy with hy | hy
      · exact Or.inr ⟨x, List.mem_cons_self x xs, hy⟩
      · exact Or.inl (List.mem_cons_of_mem x hy)
    · rcases List.mem_cons.mp hy with hy | hy
      · exact Or.inl (by rw [hy]; exact List.mem_cons_self x xs)
      · rcases ih y hy with h | ⟨x', hx', he⟩
        · exact Or.inl (List.mem_cons_of_mem x h)
        · exact Or.inr ⟨x', List.mem_cons_of_mem x hx', he⟩

/-- C5.  The denormalization invariant `clickCount = clicks.length` is
preserved by click tracking and by every completed creation call, and one
completed tracking run on a record found by id appends exactly one
`ClickData` to that record and increments its `clickCount` by exactly 1. -/
theorem clickCount_invariant_spec :
    (∀ (st : ServiceState) (urlId : String) (env : TrackEnv),
      ClickCountInvariant st → ClickCountInvariant (trackClick st urlId env)) ∧
    (∀ (st : ServiceState) (fd : UrlFormData) (now : Int) (newId origin : String)
       (stream : Nat → String) (fuel : Nat) (res : Except CreateError ShortenedUrl × ServiceState),
      ClickCountInvariant st →
      createShortUrl st fd now newId origin stream fuel = some res →
      ClickCountInvariant res.2) ∧
    (∀ (st : ServiceState) (urlId : String) (env : TrackEnv) (u : ShortenedUrl),
      ClickCountInvariant st →
      st.shortenedUrls.find? (fun v => v.id = urlId) = some u →
      (trackClick st urlId env).shortenedUrls.find? (fun v => v.id = urlId) =
        some { u with clicks := u.clicks ++ [mkClickData env],
                      clickCount := u.clickCount + 1 }) := by
  refine ⟨?_, ?_, ?_⟩
  · intro st urlId env hinv
    unfold trackClick
    cases st.shortenedUrls.find? (fun v => v.id = urlId) with
    | none => exact hinv
    | some w =>
      dsimp only [saveToStorage]
      intro u hu
      rcases mem_updateFirst _ _ st.shortenedUrls u hu with h | ⟨x, _, he⟩
      · exact hinv u h
      · rw [he]
  · intro st fd now newId origin stream fuel res hinv h
    obtain ⟨exc, st2⟩ := res
    cases exc with
    | error e =>
      rw [createShortUrl_error_state st fd now newId origin stream fuel e st2 h]
      exact hinv
    | ok r =>
      obtain ⟨hurls, _, _, _, hcc, hcl, _, _, _, _, _, _, _⟩ :=
        createShortUrl_ok_shape st fd now newId origin stream fuel r st2 h
      intro u hu
      rw [hurls] at hu
      rcases List.mem_append.mp hu with h | h
      · exact hinv u h
      · rw [List.mem_singleton.mp h, hcc, hcl]
        rfl
  · intro st urlId env u hinv hfind
    have hmem : u ∈ st.shortenedUrls := List.mem_of_find?_eq_some hfind
    have hcount : (u.clicks ++ [mkClickData env]).length = u.clickCount + 1 := by
      rw [List.length_append, List.length_singleton, hinv u hmem]
    unfold trackClick
    rw [hfind]
    dsimp only [saveToStorage]
    have h2 := find?_updateFirst (fun v => decide (v.id = urlId))
      (fun v => { v with clicks := v.clicks ++ [mkClickData env],
                         clickCount := (v.clicks ++ [mkClickData env]).length })
      u (by simpa using List.find?_some hfind) st.shortenedUrls hfind
    rw [h2]
    simp [hcount]

theorem clickCount_invariant_spec_witness :
    (trackClick exState "id1" exTrackEnv).shortenedUrls.find? (fun v => v.id = "id1") =
      some { exRecord with clicks := exRecord.clicks ++ [mkClickData exTrackEnv],
                           clickCount := exRecord.clickCount + 1 } :=
  clickCount_invariant_spec.2.2 exState "id1" exTrackEnv exRecord (by decide) (by rfl)

theorem maxClickCount_cons (x : ShortenedUrl) (xs : List ShortenedUrl) :
    maxClickCount (x :: xs) = max x.clickCount (maxClickCount xs) := rfl

theorem maxClickCount_le (l : List ShortenedUrl) :
    ∀ v ∈ l, v.clickCount ≤ maxClickCount l := by
  induction l with
  | nil => intro v hv; simp at hv
  | cons x xs ih =>
    intro v hv
    unfold maxClickCount
    rcases List.mem_cons.mp hv with hv | hv
    · rw [hv]; exact Nat.le_max_left _ _
    · exact le_trans (ih v hv) (Nat.le_max_right _ _)

theorem maxClickCount_eq_zero_iff (l : List ShortenedUrl) :
    maxClickCount l = 0 ↔ ∀ v ∈ l, v.clickCount = 0 := by
  induction l with
  | nil => simp [maxClickCount]
  | cons x xs ih =>
    unfold maxClickCount
    rw [Nat.max_eq_zero_iff, ih]
    constructor
    · rintro ⟨h1, h2⟩ v hv
      rcases List.mem_cons.mp hv with hv | hv
      · rw [hv]; exact h1
      · exact h2 v hv
    · intro h
      exact ⟨h x (List.mem_cons_self x xs), fun v hv => h v (List.mem_cons_of_mem x hv)⟩

theorem maxClickCount_attained (l : List ShortenedUrl)
    (h : maxClickCount l ≠ 0) : ∃ u ∈ l, u.clickCount = maxClickCount l := by
  induction l with
  | nil => simp [maxClickCount] at h
  | cons x xs ih =>
    unfold maxClickCount at h ⊢
    by_cases h2 : x.clickCount < maxClickCount xs
    · have hmax : max x.clickCount (maxClickCount xs) = maxClickCount xs :=
        Nat.max_eq_right (le_of_lt h2)
      rw [hmax] at h ⊢
      obtain ⟨u, hu, hc⟩ := ih h
      exact ⟨u, List.mem_cons_of_mem x hu, hc⟩
    · have hmax : max x.clickCount (maxClickCount xs) = x.clickCount :=
        Nat.max_eq_left (Nat.not_lt.mp h2)
      rw [hmax]
      exact ⟨x, List.mem_cons_self x xs, rfl⟩

/-- Closed form of the left-to-right reduction: starting from accumulator
`m`, the fold returns the accumulator unless some element strictly beats it,
in which case it returns the first element attaining the list maximum. -/
theorem foldl_mostClickedStep (l : List ShortenedUrl) :
    ∀ m : Option ShortenedUrl,
      l.foldl mostClickedStep m =
        if accCount m < maxClickCount l then
          l.find? (fun v => v.clickCount = maxClickCount l)
        else m := by
  induction l with
  | nil =>
    intro m
    simp [maxClickCount]
  | cons x xs ih =>
    intro m
    rw [List.foldl_cons, ih (mostClickedStep m x), maxClickCount_cons]
    by_cases h1 : accCount m < x.clickCount
    · have hs : mostClickedStep m x = some x := by
        unfold mostClickedStep; rw [if_pos h1]
      rw [hs]
      by_cases h2 : x.clickCount < maxClickCount xs
      · have hmax : max x.clickCount (maxClickCount xs) = maxClickCount xs :=
          Nat.max_eq_right (le_of_lt h2)
        rw [hmax]
        rw [if_pos (show accCount (some x) < maxClickCount xs from h2)]
        rw [if_pos (Nat.lt_trans h1 h2)]
        rw [List.find?_cons_of_neg]
        simp only [decide_eq_true_eq]
        omega
      · have hmax : max x.clickCount (maxClickCount xs) = x.clickCount :=
          Nat.max_eq_left (Nat.not_lt.mp h2)
        rw [hmax]
        rw [if_neg (show ¬ accCount (some x) < maxClickCount xs from h2)]
        rw [if_pos h1]
        rw [List.find?_cons_of_pos]
        simp
    · have hs : mostClickedStep m x = m := by
        unfold mostClickedStep; rw [if_neg h1]
      rw [hs]
      have hxle : x.clickCount ≤ accCount m := Nat.not_lt.mp h1
      by_cases h2 : accCount m < maxClickCount xs
      · have hmax : max x.clickCount (maxClickCount xs) = maxClickCount xs :=
          Nat.max_eq_right (le_trans hxle (le_of_lt h2))
        rw [hmax, if_pos h2, if_pos h2]
        rw [List.find?_cons_of_neg]
        simp only [decide_eq_true_eq]
        omega
      · have hmax : ¬ accCount m < max x.clickCount (maxClickCount xs) := by
          rw [Nat.not_lt] at h2 ⊢
          exact Nat.max_le.mpr ⟨hxle, h2⟩
        rw [if_neg h2, if_neg hmax]

/-- C6.  `getStatistics`'s `mostClickedUrl` is `undefined` exactly when the
store is empty or every record's `clickCount` is zero; otherwise it is the
first record in iteration order attaining the maximum `clickCount` (ties are
never replaced, since the reduction replaces only on strict `>`). -/
theorem getStatistics_mostClicked_spec (st : ServiceState) (now : Int) :
    ((getStatistics st now).mostClickedUrl = none ↔
      ∀ u ∈ st.shortenedUrls, u.clickCount = 0) ∧
    (∀ u, (getStatistics st now).mostClickedUrl = some u →
      u ∈ st.shortenedUrls ∧
      (∀ v ∈ st.shortenedUrls, v.clickCount ≤ u.clickCount) ∧
      st.shortenedUrls.find? (fun v => v.clickCount = u.clickCount) = some u) := by
  have hm : (getStatistics st now).mostClickedUrl = mostClickedUrl st.shortenedUrls := rfl
  rw [hm]
  unfold mostClickedUrl
  rw [foldl_mostClickedStep st.shortenedUrls none]
  constructor
  · by_cases h : accCount none < maxClickCount st.shortenedUrls
    · rw [if_pos h]
      constructor
      · intro hfind
        obtain ⟨u, hu, hcnt⟩ := maxClickCount_attained st.shortenedUrls
          (by simp [accCount] at h; omega)
        have hnone := List.find?_eq_none.mp hfind u hu
        simp [hcnt] at hnone
      · intro hall
        exfalso
        have h0 := (maxClickCount_eq_zero_iff st.shortenedUrls).mpr hall
        simp [accCount, h0] at h
    · rw [if_neg h]
      have h0 : maxClickCount st.shortenedUrls = 0 := by
        simp [accCount] at h
        omega
      simp only [eq_self_iff_true, true_iff]
      exact (maxClickCount_eq_zero_iff st.shortenedUrls).mp h0
  · intro u hu
    by_cases h : accCount none < maxClickCount st.shortenedUrls
    · rw [if_pos h] at hu
      have hmem := List.mem_of_find?_eq_some hu
      have hcnt : u.clickCount = maxClickCount st.shortenedUrls := by
        simpa using List.find?_some hu
      refine ⟨hmem, ?_, ?_⟩
      · intro v hv
        rw [hcnt]
        exact maxClickCount_le st.shortenedUrls v hv
      · rw [hcnt]
        exact hu
    · rw [if_neg h] at hu
      cases hu

/-- The sample record after one tracked click. -/
def exClicked : ShortenedUrl :=
  { exRecord with clickCount := 1, clicks := [mkClickData exTrackEnv] }

/-- A state holding exactly the once-clicked sample record. -/
def exState2 : ServiceState := ⟨[exClicked], ["abc12"], none⟩

theorem getStatistics_mostClicked_spec_witness :
    exClicked ∈ exState2.shortenedUrls ∧
    (∀ v ∈ exState2.shortenedUrls, v.clickCount ≤ exClicked.clickCount) ∧
    exState2.shortenedUrls.find? (fun v => v.clickCount = exClicked.clickCount) =
      some exClicked :=
  (getStatistics_mostClicked_spec exState2 0).2 exClicked (by rfl)

/-- C7.  `clearExpiredUrls` keeps exactly the records whose expiry is
strictly in the future, its reserved-code index holds exactly the survivors'
case-folded codes, a code all of whose holders have expired is no longer
reserved after the sweep, and a subsequent `createShortUrl` supplying that
same (pattern-valid) custom code succeeds. -/
theorem clearExpiredUrls_spec :
    (∀ (st : ServiceState) (now : Int),
      (clearExpiredUrls st now).shortenedUrls =
        st.shortenedUrls.filter (fun u => now < u.expiryDate)) ∧
    (∀ (st : ServiceState) (now : Int) (c : String),
      c ∈ (clearExpiredUrls st now).usedShortCodes ↔
        ∃ u ∈ (clearExpiredUrls st now).shortenedUrls, jsToLower u.shortCode = c) ∧
    (∀ (st : ServiceState) (now : Int) (code : String),
      (∀ u ∈ st.shortenedUrls, jsToLower u.shortCode = jsToLower code →
        u.expiryDate ≤ now) →
      jsToLower code ∉ (clearExpiredUrls st now).usedShortCodes) ∧
    (∀ (st : ServiceState) (now now2 : Int) (fd : UrlFormData)
       (newId origin : String) (stream : Nat → String) (fuel : Nat),
      validateUrl fd.originalUrl = true →
      (fd.validityPeriod = "" ∨ validateValidityPeriod fd.validityPeriod = true) →
      jsTrim fd.preferredShortCode ≠ "" →
      validateShortCode (jsTrim fd.preferredShortCode) = true →
      (∀ u ∈ st.shortenedUrls,
        jsToLower u.shortCode = jsToLower (jsTrim fd.preferredShortCode) →
        u.expiryDate ≤ now) →
      ∃ r st2,
        createShortUrl (clearExpiredUrls st now) fd now2 newId origin stream fuel =
          some (.ok r, st2) ∧ r.shortCode = jsTrim fd.preferredShortCode) := by
  have husers : ∀ (st : ServiceState) (now : Int),
      (clearExpiredUrls st now).usedShortCodes =
        (st.shortenedUrls.filter (fun u => now < u.expiryDate)).map
          (fun u => jsToLower u.shortCode) := fun st now => rfl
  have hfree : ∀ (st : ServiceState) (now : Int) (code : String),
      (∀ u ∈ st.shortenedUrls, jsToLower u.shortCode = jsToLower code →
        u.expiryDate ≤ now) →
      jsToLower code ∉ (clearExpiredUrls st now).usedShortCodes := by
    intro st now code hall hmem
    rw [husers] at hmem
    obtain ⟨u, hu, he⟩ := List.mem_map.mp hmem
    have h2 := List.mem_filter.mp hu
    have h3 := hall u h2.1 he
    have h4 : now < u.expiryDate := by simpa using h2.2
    omega
  refine ⟨fun st now => rfl, ?_, hfree, ?_⟩
  · intro st now c
    rw [husers]
    rw [show (clearExpiredUrls st now).shortenedUrls =
      st.shortenedUrls.filter (fun u => now < u.expiryDate) from rfl]
    exact List.mem_map
  · intro st now now2 fd newId origin stream fuel hurl hvp htr hpat hall
    have hvpOk : ¬(fd.validityPeriod ≠ "" ∧
        ¬ validateValidityPeriod fd.validityPeriod = true) := by
      rcases hvp with h | h
      · exact fun hc => hc.1 h
      · exact fun hc => hc.2 h
    have hres : resolveShortCode (clearExpiredUrls st now)
        (jsTrim fd.preferredShortCode) stream fuel =
        some (.ok (jsTrim fd.preferredShortCode)) := by
      unfold resolveShortCode
      rw [if_pos htr, if_neg (not_not_intro hpat),
        if_neg (hfree st now (jsTrim fd.preferredShortCode) hall)]
    have hcreate : createShortUrl (clearExpiredUrls st now) fd now2 newId origin stream fuel =
        some (.ok
          { id := newId
            originalUrl := fd.originalUrl
            shortCode := jsTrim fd.preferredShortCode
            shortUrl := origin ++ "/" ++ jsTrim fd.preferredShortCode
            validityPeriod := resolvedValidityPeriod fd
            expiryDate := now2 + resolvedValidityPeriod fd * 60000
            createdAt := now2
            clickCount := 0
            clicks := [] },
          saveToStorage
            { clearExpiredUrls st now with
                shortenedUrls := (clearExpiredUrls st now).shortenedUrls ++
                  [{ id := newId
                     originalUrl := fd.originalUrl
                     shortCode := jsTrim fd.preferredShortCode
                     shortUrl := origin ++ "/" ++ jsTrim fd.preferredShortCode
                     validityPeriod := resolvedValidityPeriod fd
                     expiryDate := now2 + resolvedValidityPeriod fd * 60000
                     createdAt := now2
                     clickCount := 0
                     clicks := [] }],
                usedShortCodes := (clearExpiredUrls st now).usedShortCodes ++
                  [jsToLower (jsTrim fd.preferredShortCode)] }) := by
      unfold createShortUrl
      rw [if_neg (not_not_intro hurl), if_neg hvpOk, hres]
    exact ⟨_, _, hcreate, rfl⟩

theorem clearExpiredUrls_spec_witness :
    ∃ r st2,
      createShortUrl (clearExpiredUrls exState 1800100)
          ⟨"https://example.com", "", "ABC12"⟩ 2000000 "id2" "o" exStream 1 =
        some (.ok r, st2) ∧ r.shortCode = jsTrim "ABC12" :=
  clearExpiredUrls_spec.2.2.2 exState 1800100 2000000
    ⟨"https://example.com", "", "ABC12"⟩ "id2" "o" exStream 1
    (by rfl) (Or.inl rfl) (by decide) (by rfl) (by decide)

end UrlShortener
